import Mathlib

/-!
Verification model of `py/vtdb/vtgate_cursor.py` (VTGateCursor and
StreamVTGateCursor).

Pure shallow embedding: row cells are modelled as `Int` (any linearly
ordered value type works the same way), SQL text as `String`, and the
connection collaborator as a record of oracle functions returning
`Except` values (Python exceptions become `Except.error`).  Python's
stable `list.sort`/`sorted` is modelled by a stable insertion sort.
Helpers that live in `base_cursor.py`/`dbexceptions.py` (not part of the
sources) are modelled from the specification and marked as such in their
doc comments.
-/

set_option maxHeartbeats 1000000

namespace Vtgate

/-! ## Character and string helpers -/

/-- Whitespace characters matched by Python 2's regex class `\s`
(ASCII semantics): space, tab, newline, carriage return, vertical tab,
form feed. -/
def isSpace (c : Char) : Bool :=
  c == ' ' || c == '\t' || c == '\n' || c == '\r' || c == '\x0b' || c == '\x0c'

/-- Lower-case a character, but only in the ASCII range
(`string.encode('utf8').lower().decode('utf8')` acts exactly like this
per character, since non-ASCII code points encode to bytes at or above
0x80 which `bytes.lower` leaves untouched). -/
def asciiLowerChar (c : Char) : Char :=
  if 'A' ≤ c ∧ c ≤ 'Z' then Char.ofNat (c.toNat + 32) else c

/-- Source `ascii_lower`: lower-case, but only in the ASCII range. -/
def ascii_lower (string : String) : String :=
  String.mk (string.data.map asciiLowerChar)

/-- Case-insensitive (ASCII folding) check that the character list `cs`
starts with the (already lower-case) keyword `w`. -/
def startsWithKeyword : List Char → List Char → Bool
  | [], _ => true
  | _ :: _, [] => false
  | w :: ws, c :: cs => asciiLowerChar c == w && startsWithKeyword ws cs

/-- Source `write_sql_pattern = re.compile(r'\s*(insert|update|delete)',
re.IGNORECASE)` used via `.match`: after leading whitespace the text must
start, case-insensitively, with one of the three keywords. -/
def write_sql_pattern (sql : String) : Bool :=
  let t := sql.data.dropWhile isSpace
  startsWithKeyword "insert".data t ||
    startsWithKeyword "update".data t ||
    startsWithKeyword "delete".data t

/-- Modelled from the spec: `base_cursor`'s `_handle_transaction_sql`
(not in the sources) recognizes a transaction-control directive by
matching the statement's leading token case-insensitively against
begin/commit/rollback. -/
def is_transaction_sql (sql : String) : Bool :=
  let tok := ((sql.data.dropWhile isSpace).takeWhile
    (fun c => !(isSpace c))).map asciiLowerChar
  decide (tok = "begin".data) || decide (tok = "commit".data) ||
    decide (tok = "rollback".data)

/-! ## Rows and the stable multi-pass sort -/

/-- A row is an ordered sequence of scalar cells. -/
abbrev Row := List Int

/-- Cell of a row at a position (total model of Python's `row[i]`;
theorems about rows are stated on rows long enough for every access). -/
def cellD (row : Row) (i : Nat) : Int :=
  row.getD i 0

/-- Stable insertion of `x` into `l`: `x` goes in front of the first
element `y` with `le x y`; on ties the existing element keeps its place
relative to later elements while `x`, which originates earlier, lands in
front. -/
def ordered_insert (le : α → α → Bool) (x : α) : List α → List α
  | [] => [x]
  | y :: ys => if le x y then x :: y :: ys else y :: ordered_insert le x ys

/-- Stable sort (insertion sort).  Python's `list.sort`/`sorted` are
guaranteed stable; a stable sort under a total preorder is unique, so
this models them faithfully. -/
def stable_sort (le : α → α → Bool) : List α → List α
  | [] => []
  | x :: xs => ordered_insert le x (stable_sort le xs)

/-- Comparison used by one sorting pass of `sort_row_list_by_columns`:
key is `operator.itemgetter(column_index)`, direction is reversed when
the pass is descending (Python's `reverse=True` keeps the sort stable,
which is the same as stably sorting under the flipped key comparison). -/
def row_pass_le (column_index : Nat) (desc : Bool) (a b : Row) : Bool :=
  if desc then decide (cellD b column_index ≤ cellD a column_index)
  else decide (cellD a column_index ≤ cellD b column_index)

/-- Source `sort_row_list_by_columns(row_list, sort_columns,
desc_columns)`: for `column_index, column_name` in
`reversed(list(enumerate(sort_columns)))`, stably sort keyed on
`row[column_index]`, reversed iff `column_name in desc_columns`. -/
def sort_row_list_by_columns (row_list : List Row)
    (sort_columns : List String := []) (desc_columns : List String := []) :
    List Row :=
  ((sort_columns.enum).reverse).foldl
    (fun rl ic => stable_sort (row_pass_le ic.1 (desc_columns.contains ic.2)) rl)
    row_list

/-- The (position, descending?) pass specifications derived from
`enumerate(sort_columns)` and the membership test against
`desc_columns`. -/
def col_specs (sort_columns desc_columns : List String) : List (Nat × Bool) :=
  (sort_columns.enum).map (fun ic => (ic.1, desc_columns.contains ic.2))

/-- The sequence of stable sorting passes, primary pass (head of the
spec list) applied last. -/
def sort_by_specs (specs : List (Nat × Bool)) (rows : List Row) : List Row :=
  specs.foldr (fun s acc => stable_sort (row_pass_le s.1 s.2) acc) rows

/-- Lexicographic comparison of two rows over a list of
(position, descending?) specifications, each position compared in its
declared direction. -/
def lex_le : List (Nat × Bool) → Row → Row → Bool
  | [], _, _ => true
  | s :: rest, a, b =>
    if cellD a s.1 = cellD b s.1 then lex_le rest a b
    else row_pass_le s.1 s.2 a b

/-- The vector of the `k` leading cells of a row (the sort key). -/
def sort_key (k : Nat) (r : Row) : List Int :=
  (List.range k).map (fun i => cellD r i)

/-! ## Aggregate emulation -/

/-- An entry of `order_by_columns`: either a bare column reference
(ascending) or a (column, direction) pair, per the spec's data model for
`orderSpec`. -/
inductive OrderClause where
  | bare (name : String)
  | pair (name dir : String)
deriving DecidableEq

/-- Column name of an order clause (`order_clause[0]` resp. the bare
value). -/
def order_clause_name : OrderClause → String
  | .bare n => n
  | .pair n _ => n

/-- Source `VTGateCursor.fetch_aggregate(order_by_columns, limit)`, as a
function of the fetched rows (`self.fetchall()`): build `sort_columns`
and `desc_columns`, sort if there are sort columns, truncate to `limit`,
then strip the `len(order_by_columns)` leading (prepended sort key)
positions off every surviving row. -/
def fetch_aggregate (rows : List Row) (order_by_columns : List OrderClause)
    (limit : Nat) : List Row :=
  let sort_columns := order_by_columns.map order_clause_name
  let desc_columns := order_by_columns.filterMap (fun oc =>
    match oc with
    | .pair n d => if ascii_lower d = "desc" then some n else none
    | .bare _ => none)
  let sorted_rows :=
    if sort_columns.isEmpty then rows.take limit
    else (sort_row_list_by_columns rows sort_columns desc_columns).take limit
  sorted_rows.map (fun row => row.drop order_by_columns.length)

/-- The ordering claim C5 asserts, written from the claim's words:
primary key column `b` (position 1) ascending, ties broken by column `a`
(position 0) descending. -/
def claimed_c5_le (x y : Row) : Bool :=
  if cellD x 1 = cellD y 1 then decide (cellD y 0 ≤ cellD x 0)
  else decide (cellD x 1 ≤ cellD y 1)

/-- The behaviour claim C5 predicts for
`fetch_aggregate(rows, [("a","desc"),("b",)], limit)`, written from the
claim's words: stable-sort primarily by `b` ascending with ties by `a`
descending, truncate, strip the two leading positions. -/
def claimed_c5_fetch_aggregate (rows : List Row) (limit : Nat) : List Row :=
  ((stable_sort claimed_c5_le rows).take limit).map (fun row => row.drop 2)

/-! ## Errors, connection oracle and cursor state -/

/-- Database exceptions raised by the cursor layer (`dbexceptions` is an
external collaborator; only the two constructors the sources raise are
needed).  `DatabaseError` carries the optional offending SQL text as its
second argument, exactly when the source passes one. -/
inductive DBErr where
  | DatabaseError (msg : String) (sql : Option String)
  | ProgrammingError (msg : String)
deriving DecidableEq

/-- Which statement text a raised error carries, if any. -/
def err_carries_sql : DBErr → Option String
  | .DatabaseError _ s => s
  | .ProgrammingError _ => none

/-- Bind variables (opaque payload passed through to the connection). -/
abbrev BindVars := List (String × Int)

/-- Entity-id to keyspace-id map (opaque payload). -/
abbrev EntityMap := List (String × Nat)

/-- The `(results, rowcount, lastrowid, description)` tuple returned by
the connection's execute primitives. -/
structure ResultTuple where
  results : List Row
  rowcount : Int
  lastrowid : Option Int
  description : Option (List String)
deriving DecidableEq

/-- The connection collaborator: `_execute`, `_execute_entity_ids`,
`_execute_batch` and `_stream_execute`, each an oracle that may fail.
Arguments mirror the call sites: sql, bind variables, keyspace, tablet
type, routing (keyspace_ids / keyranges or the entity map and column),
`not_in_transaction`, `effective_caller_id`. -/
structure Connection where
  execute_rpc : String → BindVars → Option String → String →
    Option (List Nat) → Option String → Bool → Option String →
    Except DBErr ResultTuple
  execute_entity_ids_rpc : String → BindVars → Option String → String →
    EntityMap → String → Bool → Option String → Except DBErr ResultTuple
  execute_batch_rpc : List String → List BindVars → List (Option String) →
    List (Option (List Nat)) → String → Bool → Option String →
    Except DBErr (List ResultTuple)
  stream_execute_rpc : String → BindVars → Option String → String →
    Option (List Nat) → Option String → Bool → Option String →
    Except DBErr (List Row × Option (List String))

/-- State of a materialized `VTGateCursor` (fields as in `__init__`,
plus the batch fields set by `_clear_batch_state`). -/
structure VTGateCursor where
  writable : Bool
  as_transaction : Bool
  keyspace : Option String
  tablet_type : String
  keyspace_ids : Option (List Nat)
  keyranges : Option String
  effective_caller_id : Option String
  description : Option (List String)
  index : Option Nat
  lastrowid : Option Int
  results : Option (List Row)
  rowcount : Int
  result_sets : List ResultTuple
  result_set_index : Option Nat
deriving DecidableEq

/-- Source `is_writable` (from `VTGateCursorMixin`). -/
def VTGateCursor.is_writable (c : VTGateCursor) : Bool :=
  c.writable

/-- Modelled from the spec: `base_cursor`'s `_clear_list_state` (not in
the sources) clears the current fetch state — results, rowcount,
lastrowid, description and the fetch index — and does not touch the
batch fields, which are declared on `VTGateCursor` itself (spec §4.3 and
the §9 note that non-batch executes do not clear batch state). -/
def clear_list_state (c : VTGateCursor) : VTGateCursor :=
  { c with description := none, index := none, lastrowid := none,
           results := none, rowcount := 0 }

/-- Source `_clear_batch_state`: clear state that allows traversal to
the next query's results. -/
def clear_batch_state (c : VTGateCursor) : VTGateCursor :=
  { c with result_sets := [], result_set_index := none }

/-- Source `VTGateCursor.execute`.  Returns the new cursor state and the
returned value (`None` on the transaction-control path, the row count
otherwise); raised exceptions become `Except.error`. -/
def VTGateCursor.execute (conn : Connection) (c : VTGateCursor)
    (sql : String) (bind_variables : BindVars) :
    Except DBErr (VTGateCursor × Option Int) :=
  let c1 := clear_list_state c
  if is_transaction_sql sql then .ok (c1, none)
  else if write_sql_pattern sql && !c1.is_writable then
    .error (.DatabaseError "DML on a non-writable cursor" (some sql))
  else
    match conn.execute_rpc sql bind_variables c1.keyspace c1.tablet_type
      c1.keyspace_ids c1.keyranges (!c1.is_writable) c1.effective_caller_id with
    | .error e => .error e
    | .ok r =>
      .ok ({ c1 with results := some r.results, rowcount := r.rowcount,
                     lastrowid := r.lastrowid, description := r.description },
           some r.rowcount)

/-- Source `VTGateCursor.execute_entity_ids`: by definition a scatter
query, so write queries always raise (with a message that carries no
statement text). -/
def VTGateCursor.execute_entity_ids (conn : Connection) (c : VTGateCursor)
    (sql : String) (bind_variables : BindVars)
    (entity_keyspace_id_map : EntityMap) (entity_column_name : String) :
    Except DBErr (VTGateCursor × Option Int) :=
  let c1 := clear_list_state c
  if write_sql_pattern sql then
    .error (.DatabaseError "execute_entity_ids is not allowed for write queries" none)
  else
    match conn.execute_entity_ids_rpc sql bind_variables c1.keyspace
      c1.tablet_type entity_keyspace_id_map entity_column_name
      (!c1.is_writable) c1.effective_caller_id with
    | .error e => .error e
    | .ok r =>
      .ok ({ c1 with results := some r.results, rowcount := r.rowcount,
                     lastrowid := r.lastrowid, description := r.description },
           some r.rowcount)

/-- One element of `params_list` for `executemany` (the keyword params
each element must supply). -/
structure BatchParams where
  sql : String
  bind_variables : BindVars
  keyspace : Option String
  keyspace_ids : Option (List Nat)
deriving DecidableEq

/-- First half of source `executemany`: build the parallel per-statement
lists (the shared `sql` is used for every statement when it is truthy,
i.e. present and non-empty), clear the previous batch state and store
the batch-execute results as `result_sets`. -/
def batch_setup (conn : Connection) (c : VTGateCursor) (sql : Option String)
    (params_list : List BatchParams) : Except DBErr VTGateCursor :=
  let sql_list :=
    match sql with
    | some s =>
      if s = "" then params_list.map (fun params => params.sql)
      else List.replicate params_list.length s
    | none => params_list.map (fun params => params.sql)
  let bind_variables_list := params_list.map (fun params => params.bind_variables)
  let keyspace_list := params_list.map (fun params => params.keyspace)
  let keyspace_ids_list := params_list.map (fun params => params.keyspace_ids)
  let c1 := clear_batch_state c
  match conn.execute_batch_rpc sql_list bind_variables_list keyspace_list
    keyspace_ids_list c1.tablet_type c1.as_transaction c1.effective_caller_id with
  | .error e => .error e
  | .ok rs => .ok { c1 with result_sets := rs }

/-- The index the next `nextset` call will move to (`0` when
`result_set_index` is unset, its successor otherwise). -/
def next_index (c : VTGateCursor) : Nat :=
  match c.result_set_index with
  | none => 0
  | some j => j + 1

/-- Source `VTGateCursor.nextset`: advance `result_set_index`, clear the
current fetch state, then either populate the fetch state from the next
result set and report `True`, or clear the batch state entirely and
report `None`. -/
def VTGateCursor.nextset (c : VTGateCursor) : Option Bool × VTGateCursor :=
  let i := next_index c
  let c1 := clear_list_state { c with result_set_index := some i }
  -- the index update and the fetch-state clear leave `result_sets`
  -- untouched, so the bounds check and the lookup read it off `c`
  if h : i < c.result_sets.length then
    let r := c.result_sets.get ⟨i, h⟩
    (some true,
      { c1 with results := some r.results, rowcount := r.rowcount,
                lastrowid := r.lastrowid, description := r.description })
  else
    (none, clear_batch_state c1)

/-- Source `VTGateCursor.executemany`: set up the batch, then advance to
the first result set (`self.nextset()`, return value discarded). -/
def VTGateCursor.executemany (conn : Connection) (c : VTGateCursor)
    (sql : Option String) (params_list : List BatchParams) :
    Except DBErr VTGateCursor :=
  match batch_setup conn c sql params_list with
  | .error e => .error e
  | .ok c1 => .ok (c1.nextset).2

/-- Modelled from the spec: the base cursor's `close` (not in the
sources) releases the underlying fetch resources, i.e. drops the
materialized results. -/
def base_close (c : VTGateCursor) : VTGateCursor :=
  { c with results := none }

/-- Source `VTGateCursor.close`: `super().close()` then
`_clear_batch_state()`. -/
def VTGateCursor.close (c : VTGateCursor) : VTGateCursor :=
  clear_batch_state (base_close c)

/-- Results of `m` successive `nextset` calls (the advance reports in
order) together with the final cursor state. -/
def advance_results : Nat → VTGateCursor → List (Option Bool) × VTGateCursor
  | 0, c => ([], c)
  | m + 1, c =>
    let step := c.nextset
    let rest := advance_results m step.2
    (step.1 :: rest.1, rest.2)

/-- State of a `StreamVTGateCursor` (no batch state, no materialized
results; the lazy row producer is modelled by the finite sequence of
rows it will yield). -/
structure StreamVTGateCursor where
  writable : Bool
  keyspace : Option String
  tablet_type : String
  keyspace_ids : Option (List Nat)
  keyranges : Option String
  effective_caller_id : Option String
  generator : Option (List Row)
  description : Option (List String)
deriving DecidableEq

/-- Modelled from the spec: the base stream cursor's
`_clear_stream_state` (not in the sources) drops the active row producer
and the description. -/
def clear_stream_state (c : StreamVTGateCursor) : StreamVTGateCursor :=
  { c with generator := none, description := none }

/-- Source `StreamVTGateCursor.execute`: refuse writable streaming
cursors before anything else, otherwise clear stream state, delegate to
`_stream_execute`, store the row producer and description, and return
0. -/
def StreamVTGateCursor.execute (conn : Connection) (c : StreamVTGateCursor)
    (sql : String) (bind_variables : BindVars) :
    Except DBErr (StreamVTGateCursor × Int) :=
  if c.writable then .error (.ProgrammingError "Streaming query cannot be writable")
  else
    let c1 := clear_stream_state c
    match conn.stream_execute_rpc sql bind_variables c1.keyspace c1.tablet_type
      c1.keyspace_ids c1.keyranges (!c1.writable) c1.effective_caller_id with
    | .error e => .error e
    | .ok gd => .ok ({ c1 with generator := some gd.1, description := gd.2 }, 0)

/-! ## Concrete instances used as evaluation points -/

/-- A sample result tuple returned by the oracle connection. -/
def rt0 : ResultTuple :=
  { results := [[7]], rowcount := 1, lastrowid := none, description := none }

/-- A concrete, always-succeeding connection oracle: every execute
primitive answers `rt0` (the batch primitive answers one `rt0` per
statement), the streaming primitive answers one row and a
description. -/
def conn0 : Connection where
  execute_rpc := fun _ _ _ _ _ _ _ _ => .ok rt0
  execute_entity_ids_rpc := fun _ _ _ _ _ _ _ _ => .ok rt0
  execute_batch_rpc := fun sql_list _ _ _ _ _ _ => .ok (sql_list.map (fun _ => rt0))
  stream_execute_rpc := fun _ _ _ _ _ _ _ _ => .ok ([[7]], some ["col0"])

/-- A freshly constructed non-writable cursor (state as `__init__`
leaves it). -/
def c0 : VTGateCursor where
  writable := false
  as_transaction := false
  keyspace := some "test_keyspace"
  tablet_type := "master"
  keyspace_ids := none
  keyranges := none
  effective_caller_id := none
  description := none
  index := none
  lastrowid := none
  results := none
  rowcount := 0
  result_sets := []
  result_set_index := none

/-- A writable cursor. -/
def cw0 : VTGateCursor := { c0 with writable := true }

/-- State of `c0` after one successful plain execute against `conn0`. -/
def c0run : VTGateCursor := { c0 with results := some [[7]], rowcount := 1 }

/-- State of `c0` after `batch_setup` of a two-statement batch against
`conn0` (before the automatic advance). -/
def c3s : VTGateCursor := { c0 with result_sets := [rt0, rt0] }

/-- A freshly constructed non-writable streaming cursor. -/
def cs0 : StreamVTGateCursor where
  writable := false
  keyspace := some "test_keyspace"
  tablet_type := "master"
  keyspace_ids := none
  keyranges := none
  effective_caller_id := none
  generator := none
  description := none

/-- A writable streaming cursor. -/
def cws0 : StreamVTGateCursor := { cs0 with writable := true }

/-- A sample `executemany` params entry. -/
def bp0 : BatchParams :=
  { sql := "select 1", bind_variables := [],
    keyspace := some "test_keyspace", keyspace_ids := none }

/-! ## Lemmas about the stable sort -/

theorem ordered_insert_perm (le : α → α → Bool) (x : α) (l : List α) :
    List.Perm (ordered_insert le x l) (x :: l) := by
  induction l with
  | nil => exact List.Perm.refl _
  | cons y ys ih =>
    simp only [ordered_insert]
    split
    · exact List.Perm.refl _
    · exact (ih.cons y).trans (List.Perm.swap x y ys)

theorem stable_sort_perm (le : α → α → Bool) (l : List α) :
    List.Perm (stable_sort le l) l := by
  induction l with
  | nil => exact List.Perm.refl _
  | cons x xs ih => exact (ordered_insert_perm le x _).trans (ih.cons x)

/-- Master stability lemma: inserting `x` (which originates before every
element of `l`) preserves the invariant that consecutive output elements
`a`, `b` satisfy `le a b`, and additionally `q a b` whenever they are
`le`-equivalent — `q` records the pre-existing order. -/
theorem ordered_insert_pairwise (le : α → α → Bool) (q : α → α → Prop)
    (htot : ∀ a b, le a b = true ∨ le b a = true)
    (htrans : ∀ a b c, le a b = true → le b c = true → le a c = true)
    (x : α) (l : List α)
    (hl : l.Pairwise (fun a b => le a b = true ∧ (le b a = true → q a b)))
    (hx : ∀ y ∈ l, q x y) :
    (ordered_insert le x l).Pairwise
      (fun a b => le a b = true ∧ (le b a = true → q a b)) := by
  induction l with
  | nil => simp [ordered_insert]
  | cons y ys ih =>
    rw [List.pairwise_cons] at hl
    simp only [ordered_insert]
    split
    case isTrue hxy =>
      refine List.Pairwise.cons ?_ (List.pairwise_cons.mpr hl)
      intro z hz
      rcases List.mem_cons.mp hz with rfl | hz'
      · exact ⟨hxy, fun _ => hx z (by simp)⟩
      · exact ⟨htrans x y z hxy (hl.1 z hz').1,
          fun _ => hx z (List.mem_cons_of_mem y hz')⟩
    case isFalse hxy =>
      have hxy' : le x y = false := by
        cases h : le x y
        · rfl
        · exact absurd h hxy
      have hyx : le y x = true := by
        rcases htot x y with h | h
        · rw [hxy'] at h; exact absurd h (by simp)
        · exact h
      refine List.Pairwise.cons ?_ (ih hl.2 (fun z hz => hx z (List.mem_cons_of_mem y hz)))
      intro z hz
      have hz' : z ∈ x :: ys := (ordered_insert_perm le x ys).mem_iff.mp hz
      rcases List.mem_cons.mp hz' with rfl | hz''
      · exact ⟨hyx, fun h => by rw [hxy'] at h; exact absurd h (by simp)⟩
      · exact hl.1 z hz''

/-- Stable sort of a totally preordered list is sorted, and pairs that
are `le`-equivalent keep any `Pairwise`-invariant `q` they had in the
input (stability). -/
theorem stable_sort_pairwise (le : α → α → Bool) (q : α → α → Prop)
    (htot : ∀ a b, le a b = true ∨ le b a = true)
    (htrans : ∀ a b c, le a b = true → le b c = true → le a c = true)
    (l : List α) (hq : l.Pairwise q) :
    (stable_sort le l).Pairwise
      (fun a b => le a b = true ∧ (le b a = true → q a b)) := by
  induction l with
  | nil => simp [stable_sort]
  | cons x xs ih =>
    rw [List.pairwise_cons] at hq
    exact ordered_insert_pairwise le q htot htrans x _ (ih hq.2)
      (fun y hy => hq.1 y ((stable_sort_perm le xs).subset hy))

theorem filter_ordered_insert_pos (le : α → α → Bool) (p : α → Bool)
    (hcompat : ∀ a b, p a = true → p b = true → le a b = true)
    (x : α) (l : List α) (hx : p x = true) :
    (ordered_insert le x l).filter p = x :: l.filter p := by
  induction l with
  | nil => simp [ordered_insert, hx]
  | cons y ys ih =>
    simp only [ordered_insert]
    split
    · simp [List.filter_cons, hx]
    case isFalse hxy =>
      have hpy : p y = false := by
        cases h : p y
        · rfl
        · exact absurd (hcompat x y hx h) hxy
      simp [List.filter_cons, hpy, ih]

theorem filter_ordered_insert_neg (le : α → α → Bool) (p : α → Bool)
    (x : α) (l : List α) (hx : p x = false) :
    (ordered_insert le x l).filter p = l.filter p := by
  induction l with
  | nil => simp [ordered_insert, hx]
  | cons y ys ih =>
    simp only [ordered_insert]
    split
    · simp [List.filter_cons, hx]
    · simp [List.filter_cons, ih]

/-- Stability in filter form: the subsequence of elements of any class
that is mutually `le`-related is untouched by the stable sort. -/
theorem filter_stable_sort (le : α → α → Bool) (p : α → Bool)
    (hcompat : ∀ a b, p a = true → p b = true → le a b = true)
    (l : List α) :
    (stable_sort le l).filter p = l.filter p := by
  induction l with
  | nil => rfl
  | cons x xs ih =>
    simp only [stable_sort]
    cases hx : p x
    · rw [filter_ordered_insert_neg le p x _ hx, ih]
      simp [List.filter_cons, hx]
    · rw [filter_ordered_insert_pos le p hcompat x _ hx, ih]
      simp [List.filter_cons, hx]

/-! ## Lemmas about the per-pass row comparison -/

theorem row_pass_le_total (i : Nat) (d : Bool) (a b : Row) :
    row_pass_le i d a b = true ∨ row_pass_le i d b a = true := by
  cases d <;> simp [row_pass_le] <;> exact Int.le_total _ _

theorem row_pass_le_trans (i : Nat) (d : Bool) (a b c : Row) :
    row_pass_le i d a b = true → row_pass_le i d b c = true →
      row_pass_le i d a c = true := by
  cases d <;> simp [row_pass_le] <;> omega

theorem row_pass_le_of_eq (i : Nat) (d : Bool) (a b : Row)
    (h : cellD a i = cellD b i) : row_pass_le i d a b = true := by
  cases d <;> simp [row_pass_le, h]

/-! ## The multi-pass sort is the lexicographic stable sort -/

theorem lex_le_nil_pairwise (l : List Row) :
    l.Pairwise (fun a b => lex_le [] a b = true) := by
  induction l with
  | nil => exact List.Pairwise.nil
  | cons x xs ih => exact List.Pairwise.cons (fun y _ => rfl) ih

theorem lex_le_cons_of (s : Nat × Bool) (rest : List (Nat × Bool)) (a b : Row)
    (h1 : row_pass_le s.1 s.2 a b = true)
    (h2 : row_pass_le s.1 s.2 b a = true → lex_le rest a b = true) :
    lex_le (s :: rest) a b = true := by
  simp only [lex_le]
  split
  case isTrue hc => exact h2 (row_pass_le_of_eq s.1 s.2 b a hc.symm)
  case isFalse hc => exact h1

theorem sort_by_specs_pairwise (specs : List (Nat × Bool)) (rows : List Row) :
    (sort_by_specs specs rows).Pairwise
      (fun a b => lex_le specs a b = true) := by
  induction specs generalizing rows with
  | nil => exact lex_le_nil_pairwise rows
  | cons s rest ih =>
    have h := stable_sort_pairwise (row_pass_le s.1 s.2)
      (fun a b => lex_le rest a b = true)
      (row_pass_le_total s.1 s.2) (row_pass_le_trans s.1 s.2)
      (sort_by_specs rest rows) (ih rows)
    have hgoal :
        sort_by_specs (s :: rest) rows
          = stable_sort (row_pass_le s.1 s.2) (sort_by_specs rest rows) := rfl
    rw [hgoal]
    exact h.imp (fun hab => lex_le_cons_of s rest _ _ hab.1 hab.2)

theorem sort_by_specs_filter (specs : List (Nat × Bool)) (rows : List Row)
    (p : Row → Bool)
    (hcompat : ∀ a b, p a = true → p b = true →
      ∀ s ∈ specs, cellD a s.1 = cellD b s.1) :
    (sort_by_specs specs rows).filter p = rows.filter p := by
  induction specs generalizing rows with
  | nil => rfl
  | cons s rest ih =>
    have hgoal :
        sort_by_specs (s :: rest) rows
          = stable_sort (row_pass_le s.1 s.2) (sort_by_specs rest rows) := rfl
    rw [hgoal]
    rw [filter_stable_sort (row_pass_le s.1 s.2) p
      (fun a b ha hb => row_pass_le_of_eq s.1 s.2 a b
        (hcompat a b ha hb s (List.mem_cons_self s rest)))]
    exact ih rows (fun a b ha hb s' hs' =>
      hcompat a b ha hb s' (List.mem_cons_of_mem s hs'))

theorem sort_by_specs_perm (specs : List (Nat × Bool)) (rows : List Row) :
    List.Perm (sort_by_specs specs rows) rows := by
  induction specs with
  | nil => exact List.Perm.refl _
  | cons s rest ih => exact (stable_sort_perm _ _).trans ih

/-- The source sort is the pass-by-pass fold over `col_specs`, primary
pass applied last. -/
theorem sort_row_list_eq (rows : List Row) (cols descs : List String) :
    sort_row_list_by_columns rows cols descs
      = sort_by_specs (col_specs cols descs) rows := by
  unfold sort_row_list_by_columns sort_by_specs col_specs
  rw [List.foldl_reverse, List.foldr_map]

theorem col_specs_length (cols descs : List String) :
    (col_specs cols descs).length = cols.length := by
  simp [col_specs]

theorem col_specs_getElem (cols descs : List String) (i : Nat)
    (h : i < (col_specs cols descs).length) :
    (col_specs cols descs)[i] = (i, descs.contains (cols.getD i "")) := by
  have hi : i < cols.length := by rw [col_specs_length] at h; exact h
  rw [List.getD_eq_getElem _ _ hi]
  simp [col_specs]

theorem mem_col_specs_lt (cols descs : List String) (s : Nat × Bool)
    (hs : s ∈ col_specs cols descs) : s.1 < cols.length := by
  rcases List.mem_iff_getElem.mp hs with ⟨i, hi, hgi⟩
  rw [col_specs_getElem cols descs i hi] at hgi
  have h1 : s.1 = i := by rw [← hgi]
  rw [h1]
  rw [col_specs_length] at hi
  exact hi

theorem sort_key_eq_cells (k : Nat) (a b : Row)
    (h : sort_key k a = sort_key k b) :
    ∀ i < k, cellD a i = cellD b i := by
  intro i hi
  have := List.map_eq_map_iff.mp h i (List.mem_range.mpr hi)
  exact this

/-! ## Claim theorems: the sort -/

/-- C1: for every row list, sort columns and descending set,
`sort_row_list_by_columns` returns a sequence that is non-decreasing
under the lexicographic order over the `k` leading sort columns, each
compared in its declared direction (`Pairwise lex_le` over `col_specs`);
the sort is stable (rows equal on all sort columns — equal `sort_key` —
keep their original relative order, in filter form) and is a permutation
of the input; with empty `sort_columns` the input comes back
unchanged. -/
theorem sort_row_list_by_columns_correct (rows : List Row)
    (cols descs : List String) (v : List Int)
    (hlen : ∀ r ∈ rows, cols.length ≤ r.length) :
    (sort_row_list_by_columns rows cols descs).Pairwise
      (fun a b => lex_le (col_specs cols descs) a b = true)
    ∧ (sort_row_list_by_columns rows cols descs).filter
        (fun r => decide (sort_key cols.length r = v))
      = rows.filter (fun r => decide (sort_key cols.length r = v))
    ∧ List.Perm (sort_row_list_by_columns rows cols descs) rows
    ∧ (cols = [] → sort_row_list_by_columns rows cols descs = rows) := by
  rw [sort_row_list_eq]
  refine ⟨sort_by_specs_pairwise _ _, ?_, sort_by_specs_perm _ _, ?_⟩
  · apply sort_by_specs_filter
    intro a b ha hb s hs
    have hk : s.1 < cols.length := mem_col_specs_lt cols descs s hs
    have hva : sort_key cols.length a = v := of_decide_eq_true ha
    have hvb : sort_key cols.length b = v := of_decide_eq_true hb
    exact sort_key_eq_cells cols.length a b (hva.trans hvb.symm) s.1 hk
  · rintro rfl
    rfl

/-- Witness for C1 at a concrete input. -/
theorem sort_row_list_by_columns_correct_witness :
    (∀ r ∈ ([[1, 3], [1, 1], [0, 5]] : List Row),
      (["a", "b"] : List String).length ≤ r.length)
    ∧ ((sort_row_list_by_columns [[1, 3], [1, 1], [0, 5]] ["a", "b"] ["a"]).Pairwise
        (fun a b => lex_le (col_specs ["a", "b"] ["a"]) a b = true)
      ∧ (sort_row_list_by_columns [[1, 3], [1, 1], [0, 5]] ["a", "b"] ["a"]).filter
          (fun r => decide (sort_key (["a", "b"] : List String).length r = [1, 3]))
        = ([[1, 3], [1, 1], [0, 5]] : List Row).filter
            (fun r => decide (sort_key (["a", "b"] : List String).length r = [1, 3]))
      ∧ List.Perm (sort_row_list_by_columns [[1, 3], [1, 1], [0, 5]] ["a", "b"] ["a"])
          [[1, 3], [1, 1], [0, 5]]
      ∧ ((["a", "b"] : List String) = [] →
          sort_row_list_by_columns [[1, 3], [1, 1], [0, 5]] ["a", "b"] ["a"]
            = [[1, 3], [1, 1], [0, 5]])) :=
  ⟨by decide,
   sort_row_list_by_columns_correct [[1, 3], [1, 1], [0, 5]] ["a", "b"] ["a"]
     [1, 3] (by decide)⟩

/-- C10: the key of a sorting pass is the row element at the position of
the entry inside `sort_columns`, never the entry's value, so two
sort-column lists of equal length whose entries agree positionally on
membership in the respective descending sets sort every row list
identically. -/
theorem sort_row_list_by_columns_positional (rows : List Row)
    (cols1 descs1 cols2 descs2 : List String)
    (hlen : cols1.length = cols2.length)
    (hdir : ∀ i, i < cols1.length →
      descs1.contains (cols1.getD i "") = descs2.contains (cols2.getD i "")) :
    sort_row_list_by_columns rows cols1 descs1
      = sort_row_list_by_columns rows cols2 descs2 := by
  rw [sort_row_list_eq, sort_row_list_eq]
  have hspec : col_specs cols1 descs1 = col_specs cols2 descs2 := by
    apply List.ext_getElem
    · rw [col_specs_length, col_specs_length, hlen]
    · intro n h1 h2
      rw [col_specs_getElem cols1 descs1 n h1, col_specs_getElem cols2 descs2 n h2]
      have hn1 : n < cols1.length := by rw [col_specs_length] at h1; exact h1
      rw [hdir n hn1]
  rw [hspec]

/-- Witness for C10 at a concrete input: different column names and
different descending lists, same index/direction profile, same output. -/
theorem sort_row_list_by_columns_positional_witness :
    ((["a", "b"] : List String).length = (["p", "q"] : List String).length
      ∧ (∀ i, i < (["a", "b"] : List String).length →
          (["a"] : List String).contains ((["a", "b"] : List String).getD i "")
            = (["p", "r"] : List String).contains ((["p", "q"] : List String).getD i "")))
    ∧ sort_row_list_by_columns [[5, 1], [5, 0], [2, 9]] ["a", "b"] ["a"]
        = sort_row_list_by_columns [[5, 1], [5, 0], [2, 9]] ["p", "q"] ["p", "r"] :=
  ⟨⟨by decide, by decide⟩,
   sort_row_list_by_columns_positional [[5, 1], [5, 0], [2, 9]]
     ["a", "b"] ["a"] ["p", "q"] ["p", "r"] (by decide) (by decide)⟩

/-! ## Claim theorems: aggregate emulation -/

/-- C6: with an empty order spec `fetch_aggregate` returns exactly the
first `limit` rows, unchanged (no sorting, no stripping). -/
theorem fetch_aggregate_no_order_spec (rows : List Row) (limit : Nat) :
    fetch_aggregate rows [] limit = rows.take limit := by
  simp [fetch_aggregate]

/-- Counterexample to C5 as stated: on `[[0,0,1],[1,1,2]]` with limit 2
the code sorts primarily by column `a` (position 0) *descending* and
returns `[[2],[1]]`, while the claimed primary-`b`-ascending order
returns `[[1],[2]]`. -/
theorem fetch_aggregate_c5_cex :
    fetch_aggregate [[0, 0, 1], [1, 1, 2]]
        [OrderClause.pair "a" "desc", OrderClause.bare "b"] 2 = [[2], [1]]
    ∧ claimed_c5_fetch_aggregate [[0, 0, 1], [1, 1, 2]] 2 = [[1], [2]]
    ∧ fetch_aggregate [[0, 0, 1], [1, 1, 2]]
        [OrderClause.pair "a" "desc", OrderClause.bare "b"] 2
      ≠ claimed_c5_fetch_aggregate [[0, 0, 1], [1, 1, 2]] 2 := by
  refine ⟨by decide, by decide, by decide⟩

/-- C5 amended: `fetch_aggregate(rows, [("a","desc"),("b",)], limit)`
stable-sorts the rows primarily by column `a` (leading position 0)
descending with ties broken by column `b` (position 1) ascending,
truncates to `limit`, then strips the two leading positions; the
pre-truncation sort is lexicographically sorted for specs
`[(0, desc), (1, asc)]`, stable, and a permutation of the input. -/
theorem fetch_aggregate_pair_bare_spec (rows : List Row) (limit : Nat)
    (v : List Int) (hlen : ∀ r ∈ rows, 2 ≤ r.length) :
    fetch_aggregate rows [OrderClause.pair "a" "desc", OrderClause.bare "b"] limit
      = ((sort_row_list_by_columns rows ["a", "b"] ["a"]).take limit).map
          (fun row => row.drop 2)
    ∧ (sort_row_list_by_columns rows ["a", "b"] ["a"]).Pairwise
        (fun a b => lex_le [(0, true), (1, false)] a b = true)
    ∧ (sort_row_list_by_columns rows ["a", "b"] ["a"]).filter
        (fun r => decide (sort_key 2 r = v))
      = rows.filter (fun r => decide (sort_key 2 r = v))
    ∧ List.Perm (sort_row_list_by_columns rows ["a", "b"] ["a"]) rows := by
  have hcs : col_specs ["a", "b"] ["a"] = [(0, true), (1, false)] := by decide
  refine ⟨rfl, ?_, ?_, ?_⟩
  · rw [sort_row_list_eq]
    have h := sort_by_specs_pairwise (col_specs ["a", "b"] ["a"]) rows
    rw [hcs] at h
    rw [hcs]
    exact h
  · rw [sort_row_list_eq]
    apply sort_by_specs_filter
    intro a b ha hb s hs
    have hk : s.1 < 2 := by
      have := mem_col_specs_lt ["a", "b"] ["a"] s hs
      simpa using this
    have hva : sort_key 2 a = v := of_decide_eq_true ha
    have hvb : sort_key 2 b = v := of_decide_eq_true hb
    exact sort_key_eq_cells 2 a b (hva.trans hvb.symm) s.1 hk
  · rw [sort_row_list_eq]
    exact sort_by_specs_perm _ _

/-- Witness for the amended C5 at a concrete input. -/
theorem fetch_aggregate_pair_bare_spec_witness :
    (∀ r ∈ ([[1, 2, 10], [2, 0, 20], [1, 1, 30]] : List Row), 2 ≤ r.length)
    ∧ (fetch_aggregate [[1, 2, 10], [2, 0, 20], [1, 1, 30]]
          [OrderClause.pair "a" "desc", OrderClause.bare "b"] 2
        = ((sort_row_list_by_columns [[1, 2, 10], [2, 0, 20], [1, 1, 30]]
            ["a", "b"] ["a"]).take 2).map (fun row => row.drop 2)
      ∧ (sort_row_list_by_columns [[1, 2, 10], [2, 0, 20], [1, 1, 30]]
          ["a", "b"] ["a"]).Pairwise
          (fun a b => lex_le [(0, true), (1, false)] a b = true)
      ∧ (sort_row_list_by_columns [[1, 2, 10], [2, 0, 20], [1, 1, 30]]
          ["a", "b"] ["a"]).filter (fun r => decide (sort_key 2 r = [1, 1]))
        = ([[1, 2, 10], [2, 0, 20], [1, 1, 30]] : List Row).filter
            (fun r => decide (sort_key 2 r = [1, 1]))
      ∧ List.Perm (sort_row_list_by_columns [[1, 2, 10], [2, 0, 20], [1, 1, 30]]
          ["a", "b"] ["a"]) [[1, 2, 10], [2, 0, 20], [1, 1, 30]]) :=
  ⟨by decide,
   fetch_aggregate_pair_bare_spec [[1, 2, 10], [2, 0, 20], [1, 1, 30]] 2
     [1, 1] (by decide)⟩

/-! ## Statement classification lemmas -/

theorem startsWithKeyword_cons_head (w : Char) (ws : List Char) (c : Char)
    (cs : List Char) (h : startsWithKeyword (w :: ws) (c :: cs) = true) :
    asciiLowerChar c = w := by
  simp only [startsWithKeyword, Bool.and_eq_true, beq_iff_eq] at h
  exact h.1

theorem startsWithKeyword_cons_nil (w : Char) (ws : List Char)
    (h : startsWithKeyword (w :: ws) [] = true) : False := by
  simp [startsWithKeyword] at h

/-- A statement matching the write pattern starts (after whitespace)
with a character that ASCII-lowers to `i`, `u` or `d`. -/
theorem write_head_lower (sql : String) (h : write_sql_pattern sql = true) :
    ∃ c rest, sql.data.dropWhile isSpace = c :: rest ∧
      (asciiLowerChar c = 'i' ∨ asciiLowerChar c = 'u' ∨ asciiLowerChar c = 'd') := by
  simp only [write_sql_pattern, Bool.or_eq_true] at h
  cases hcs : sql.data.dropWhile isSpace with
  | nil =>
    rw [hcs] at h
    rcases h with (h | h) | h <;> exact (startsWithKeyword_cons_nil _ _ h).elim
  | cons c rest =>
    rw [hcs] at h
    refine ⟨c, rest, rfl, ?_⟩
    rcases h with (h | h) | h
    · exact Or.inl (startsWithKeyword_cons_head _ _ _ _ h)
    · exact Or.inr (Or.inl (startsWithKeyword_cons_head _ _ _ _ h))
    · exact Or.inr (Or.inr (startsWithKeyword_cons_head _ _ _ _ h))

theorem not_space_of_lower (c : Char)
    (h : asciiLowerChar c = 'i' ∨ asciiLowerChar c = 'u' ∨ asciiLowerChar c = 'd') :
    isSpace c = false := by
  cases hsp : isSpace c
  · rfl
  · exfalso
    simp only [isSpace, Bool.or_eq_true, beq_iff_eq] at hsp
    rcases hsp with ((((rfl | rfl) | rfl) | rfl) | rfl) | rfl <;>
      revert h <;> decide

/-- A statement matching the write pattern is never recognized as a
transaction-control directive (its leading token starts with `i`, `u` or
`d`, not with `b`, `c` or `r`). -/
theorem write_not_transaction (sql : String) (h : write_sql_pattern sql = true) :
    is_transaction_sql sql = false := by
  obtain ⟨c, rest, hcs, hlow⟩ := write_head_lower sql h
  have hsp : isSpace c = false := not_space_of_lower c hlow
  simp only [is_transaction_sql, hcs, List.takeWhile_cons, hsp, Bool.not_false,
    if_true, List.map_cons, Bool.or_eq_true, decide_eq_true_eq]
  rcases hlow with h1 | h1 | h1 <;>
    simp +decide [h1, List.cons.injEq]

/-! ## Small state-projection lemmas -/

theorem clear_list_state_writable (c : VTGateCursor) :
    (clear_list_state c).writable = c.writable := rfl

theorem clear_list_state_batch (c : VTGateCursor) :
    (clear_list_state c).result_sets = c.result_sets
    ∧ (clear_list_state c).result_set_index = c.result_set_index :=
  ⟨rfl, rfl⟩

/-! ## Claim theorems: cursor operations -/

/-- C2: on a cursor constructed non-writable, `execute` raises the
policy-violation database error — carrying the offending SQL text — for
every statement matching the write pattern (leading whitespace skipped,
case-insensitive `insert`/`update`/`delete`), and for every other
statement it does not raise the policy error but proceeds: it is
consumed by the transaction handler, or delegated to the connection's
execute primitive (with `not_in_transaction = true`), whose outcome is
passed through. -/
theorem execute_write_policy (conn : Connection) (c : VTGateCursor)
    (sql : String) (bind_variables : BindVars) (hw : c.writable = false) :
    (write_sql_pattern sql = true →
      VTGateCursor.execute conn c sql bind_variables
        = .error (.DatabaseError "DML on a non-writable cursor" (some sql)))
    ∧ (write_sql_pattern sql = false →
      VTGateCursor.execute conn c sql bind_variables
        = if is_transaction_sql sql then .ok (clear_list_state c, none)
          else
            match conn.execute_rpc sql bind_variables c.keyspace c.tablet_type
              c.keyspace_ids c.keyranges true c.effective_caller_id with
            | .error e => .error e
            | .ok r =>
              .ok ({ clear_list_state c with
                       results := some r.results,
                       rowcount := r.rowcount,
                       lastrowid := r.lastrowid,
                       description := r.description }, some r.rowcount)) := by
  constructor
  · intro hwq
    have htx := write_not_transaction sql hwq
    simp [VTGateCursor.execute, htx, VTGateCursor.is_writable,
      clear_list_state_writable, hw, hwq]
  · intro hnw
    by_cases htx : is_transaction_sql sql
    · simp only [VTGateCursor.execute, htx, if_true]
    · simp only [VTGateCursor.execute, htx, VTGateCursor.is_writable,
        clear_list_state_writable, hw, hnw, Bool.false_eq_true, if_false,
        Bool.not_false, Bool.false_and]
      rfl

/-- Witness for C2: the policy error on a concrete write statement, and
the delegation on a concrete read statement, on a fresh non-writable
cursor against the concrete oracle. -/
theorem execute_write_policy_witness :
    (c0.writable = false ∧ write_sql_pattern "  Insert into t values (1)" = true)
    ∧ VTGateCursor.execute conn0 c0 "  Insert into t values (1)" []
        = .error (.DatabaseError "DML on a non-writable cursor"
            (some "  Insert into t values (1)")) :=
  ⟨⟨rfl, by decide⟩,
   (execute_write_policy conn0 c0 "  Insert into t values (1)" [] rfl).1 (by decide)⟩

theorem advance_results_succ (m : Nat) (c : VTGateCursor) :
    advance_results (m + 1) c
      = ((c.nextset).1 :: (advance_results m (c.nextset).2).1,
         (advance_results m (c.nextset).2).2) := rfl

/-- A missing advance: when the next index is out of range, `nextset`
reports `None` and fully clears the batch state. -/
theorem nextset_miss (c : VTGateCursor)
    (h : ¬ next_index c < c.result_sets.length) :
    c.nextset = (none, clear_batch_state (clear_list_state
      { c with result_set_index := some (next_index c) })) := by
  simp only [VTGateCursor.nextset]
  rw [dif_neg h]

/-- A hitting advance: when the next index is in range, `nextset`
reports `True`, keeps `result_sets`, and moves `result_set_index` to the
next index. -/
theorem nextset_hit (c : VTGateCursor)
    (h : next_index c < c.result_sets.length) :
    (c.nextset).1 = some true
    ∧ (c.nextset).2.result_sets = c.result_sets
    ∧ (c.nextset).2.result_set_index = some (next_index c) := by
  simp only [VTGateCursor.nextset]
  rw [dif_pos h]
  exact ⟨rfl, rfl, rfl⟩

/-- Running `k + 1` advances from a cursor positioned at index `j` of
`j + 1 + k` result sets reports `k` times `True` and then `None`, and
ends with the batch state cleared. -/
theorem advance_run (k : Nat) : ∀ (c : VTGateCursor) (j : Nat),
    c.result_set_index = some j → c.result_sets.length = j + 1 + k →
    (advance_results (k + 1) c).1 = List.replicate k (some true) ++ [none]
    ∧ (advance_results (k + 1) c).2.result_sets = []
    ∧ (advance_results (k + 1) c).2.result_set_index = none := by
  induction k with
  | zero =>
    intro c j hj hlen
    have hni : next_index c = j + 1 := by simp [next_index, hj]
    have hmiss : ¬ next_index c < c.result_sets.length := by
      rw [hni, hlen]; omega
    rw [advance_results_succ, nextset_miss c hmiss]
    exact ⟨rfl, rfl, rfl⟩
  | succ k ih =>
    intro c j hj hlen
    have hni : next_index c = j + 1 := by simp [next_index, hj]
    have hhit : next_index c < c.result_sets.length := by
      rw [hni, hlen]; omega
    obtain ⟨h1, h2, h3⟩ := nextset_hit c hhit
    have hrun := ih (c.nextset).2 (j + 1)
      (by rw [h3, hni]) (by rw [h2, hlen]; omega)
    rw [advance_results_succ]
    refine ⟨?_, hrun.2.1, hrun.2.2⟩
    rw [h1, hrun.1, List.replicate_succ, List.cons_append]

/-- C3: after a successful batch setup whose oracle returned exactly
`len(params_list)` result tuples, `executemany` performs the first
advance itself, and the combined advance sequence (that internal
`nextset` plus the subsequent calls) reports `True` exactly
`len(params_list)` times followed by exactly one falsy (`None`) advance
which leaves `result_sets` empty and `result_set_index` unset. -/
theorem executemany_nextset_spec (conn : Connection) (c : VTGateCursor)
    (sql : Option String) (params_list : List BatchParams) (c1 : VTGateCursor)
    (hsetup : batch_setup conn c sql params_list = .ok c1)
    (hn : c1.result_sets.length = params_list.length) :
    (advance_results (params_list.length + 1) c1).1
      = List.replicate params_list.length (some true) ++ [none]
    ∧ (advance_results (params_list.length + 1) c1).2.result_sets = []
    ∧ (advance_results (params_list.length + 1) c1).2.result_set_index = none
    ∧ VTGateCursor.executemany conn c sql params_list = .ok (c1.nextset).2 := by
  have hidx : c1.result_set_index = none := by
    simp only [batch_setup] at hsetup
    split at hsetup
    · exact absurd hsetup (by simp)
    · simp only [Except.ok.injEq] at hsetup
      rw [← hsetup]
      rfl
  have hemany : VTGateCursor.executemany conn c sql params_list = .ok (c1.nextset).2 := by
    simp only [VTGateCursor.executemany, hsetup]
  have hni : next_index c1 = 0 := by simp [next_index, hidx]
  have main : (advance_results (params_list.length + 1) c1).1
      = List.replicate params_list.length (some true) ++ [none]
      ∧ (advance_results (params_list.length + 1) c1).2.result_sets = []
      ∧ (advance_results (params_list.length + 1) c1).2.result_set_index = none := by
    cases hp : params_list.length with
    | zero =>
      have hmiss : ¬ next_index c1 < c1.result_sets.length := by
        rw [hni, hn, hp]; omega
      rw [advance_results_succ, nextset_miss c1 hmiss]
      exact ⟨rfl, rfl, rfl⟩
    | succ m =>
      have hhit : next_index c1 < c1.result_sets.length := by
        rw [hni, hn, hp]; omega
      obtain ⟨h1, h2, h3⟩ := nextset_hit c1 hhit
      have hrun := advance_run m (c1.nextset).2 0
        (by rw [h3, hni]) (by rw [h2, hn, hp]; omega)
      rw [advance_results_succ]
      refine ⟨?_, hrun.2.1, hrun.2.2⟩
      rw [h1, hrun.1, List.replicate_succ, List.cons_append]
  exact ⟨main.1, main.2.1, main.2.2, hemany⟩

/-- Witness for C3: a concrete two-statement batch against the concrete
oracle: two `True` advances (the one inside `executemany` and one
explicit call), then one `None` advance that clears the batch state. -/
theorem executemany_nextset_spec_witness :
    (batch_setup conn0 c0 (some "select 1") [bp0, bp0] = .ok c3s
      ∧ c3s.result_sets.length = [bp0, bp0].length)
    ∧ ((advance_results ([bp0, bp0].length + 1) c3s).1
        = List.replicate [bp0, bp0].length (some true) ++ [none]
      ∧ (advance_results ([bp0, bp0].length + 1) c3s).2.result_sets = []
      ∧ (advance_results ([bp0, bp0].length + 1) c3s).2.result_set_index = none
      ∧ VTGateCursor.executemany conn0 c0 (some "select 1") [bp0, bp0]
          = .ok (c3s.nextset).2) :=
  ⟨⟨rfl, rfl⟩,
   executemany_nextset_spec conn0 c0 (some "select 1") [bp0, bp0] c3s rfl rfl⟩

/-- Counterexample to C4 as stated: after a two-statement `executemany`
(batch state active: two result sets, index 0), a plain `execute` of a
read statement returns with `result_sets` still holding both tuples —
the non-batch execute does *not* clear the batch state. -/
theorem execute_batch_state_cex :
    (VTGateCursor.executemany conn0 c0 (some "select 1") [bp0, bp0]).map
        (fun c2 => (c2.result_sets.length, c2.result_set_index)) = .ok (2, some 0)
    ∧ (VTGateCursor.executemany conn0 c0 (some "select 1") [bp0, bp0]).bind
        (fun c2 => (VTGateCursor.execute conn0 c2 "select 2" []).map
          (fun pr => pr.1.result_sets)) = .ok [rt0, rt0]
    ∧ ([rt0, rt0] : List ResultTuple) ≠ [] :=
  ⟨rfl, rfl, by decide⟩

/-- C4 amended: a non-batch execute (`execute` or `execute_entity_ids`)
repopulates the current fetch state but leaves the batch state —
`result_sets` and `result_set_index` — exactly as it was before the
call; in particular the batch state is not cleared. -/
theorem nonbatch_execute_preserves_batch_state (conn : Connection)
    (c : VTGateCursor) (sql : String) (bind_variables : BindVars)
    (em : EntityMap) (ecn : String) (c1 c2 : VTGateCursor) (r1 r2 : Option Int) :
    (VTGateCursor.execute conn c sql bind_variables = .ok (c1, r1) →
      c1.result_sets = c.result_sets ∧ c1.result_set_index = c.result_set_index)
    ∧ (VTGateCursor.execute_entity_ids conn c sql bind_variables em ecn
        = .ok (c2, r2) →
      c2.result_sets = c.result_sets ∧ c2.result_set_index = c.result_set_index) := by
  constructor
  · intro h
    simp only [VTGateCursor.execute] at h
    split at h
    · simp only [Except.ok.injEq, Prod.mk.injEq] at h
      rw [← h.1]
      exact ⟨rfl, rfl⟩
    · split at h
      · exact absurd h (by simp)
      · split at h
        · exact absurd h (by simp)
        · simp only [Except.ok.injEq, Prod.mk.injEq] at h
          rw [← h.1]
          exact ⟨rfl, rfl⟩
  · intro h
    simp only [VTGateCursor.execute_entity_ids] at h
    split at h
    · exact absurd h (by simp)
    · split at h
      · exact absurd h (by simp)
      · simp only [Except.ok.injEq, Prod.mk.injEq] at h
        rw [← h.1]
        exact ⟨rfl, rfl⟩

/-- Witness for the amended C4: a concrete successful execute whose
result state carries the previous (empty) batch state through. -/
theorem nonbatch_execute_preserves_batch_state_witness :
    VTGateCursor.execute conn0 c0 "select 1" [] = .ok (c0run, some 1)
    ∧ (c0run.result_sets = c0.result_sets
      ∧ c0run.result_set_index = c0.result_set_index) :=
  ⟨rfl,
   (nonbatch_execute_preserves_batch_state conn0 c0 "select 1" [] [] "col"
     c0run c0run (some 1) (some 1)).1 rfl⟩

/-- C7 amended: `execute_entity_ids` rejects every statement matching
the write pattern with a database error, for every cursor (writable or
not) and independently of the connection (so before any connection
primitive can run) — but the error carries a fixed message and no
statement text. -/
theorem execute_entity_ids_write_reject (conn : Connection) (c : VTGateCursor)
    (sql : String) (bind_variables : BindVars) (em : EntityMap) (ecn : String)
    (h : write_sql_pattern sql = true) :
    VTGateCursor.execute_entity_ids conn c sql bind_variables em ecn
      = .error (.DatabaseError
          "execute_entity_ids is not allowed for write queries" none) := by
  simp only [VTGateCursor.execute_entity_ids, h, if_true]

/-- Witness for the amended C7: concrete write statement on a *writable*
cursor, still rejected. -/
theorem execute_entity_ids_write_reject_witness :
    write_sql_pattern "update t set a = 1" = true
    ∧ VTGateCursor.execute_entity_ids conn0 cw0 "update t set a = 1" [] [] "id"
        = .error (.DatabaseError
            "execute_entity_ids is not allowed for write queries" none) :=
  ⟨by decide,
   execute_entity_ids_write_reject conn0 cw0 "update t set a = 1" [] [] "id"
     (by decide)⟩

/-- Counterexample to C7 as stated: the rejection error raised by
`execute_entity_ids` for a concrete write statement does not carry the
offending statement text (its SQL payload is `none`). -/
theorem execute_entity_ids_no_sql_cex :
    VTGateCursor.execute_entity_ids conn0 cw0 "insert into t values (1)" [] [] "id"
      = .error (.DatabaseError
          "execute_entity_ids is not allowed for write queries" none)
    ∧ err_carries_sql
        (.DatabaseError "execute_entity_ids is not allowed for write queries" none)
      ≠ some "insert into t values (1)" :=
  ⟨rfl, by decide⟩

/-- C8: a streaming cursor constructed writable fails `execute`
immediately with the programming error, independently of the connection;
a non-writable one, when the connection's stream primitive succeeds,
stores the returned lazy row producer and description and returns 0. -/
theorem stream_execute_spec (conn : Connection) (c : StreamVTGateCursor)
    (sql : String) (bind_variables : BindVars) :
    (c.writable = true →
      StreamVTGateCursor.execute conn c sql bind_variables
        = .error (.ProgrammingError "Streaming query cannot be writable"))
    ∧ (∀ g d, c.writable = false →
      conn.stream_execute_rpc sql bind_variables c.keyspace c.tablet_type
          c.keyspace_ids c.keyranges true c.effective_caller_id = .ok (g, d) →
      StreamVTGateCursor.execute conn c sql bind_variables
        = .ok ({ clear_stream_state c with
                   generator := some g,
                   description := d }, 0)) := by
  constructor
  · intro hw
    simp [StreamVTGateCursor.execute, hw]
  · intro g d hw hc
    simp only [StreamVTGateCursor.execute, hw, Bool.false_eq_true, if_false]
    have hks : (clear_stream_state c).keyspace = c.keyspace := rfl
    have htt : (clear_stream_state c).tablet_type = c.tablet_type := rfl
    have hki : (clear_stream_state c).keyspace_ids = c.keyspace_ids := rfl
    have hkr : (clear_stream_state c).keyranges = c.keyranges := rfl
    have hec : (clear_stream_state c).effective_caller_id = c.effective_caller_id := rfl
    have hwb : (!(clear_stream_state c).writable) = true := by
      have : (clear_stream_state c).writable = c.writable := rfl
      rw [this, hw]
      rfl
    rw [hks, htt, hki, hkr, hec, hwb, hc]

/-- Witness for C8: the immediate failure on a concrete writable
streaming cursor, and the successful store-and-return-0 on a concrete
non-writable one. -/
theorem stream_execute_spec_witness :
    (cws0.writable = true
      ∧ StreamVTGateCursor.execute conn0 cws0 "select 1" []
          = .error (.ProgrammingError "Streaming query cannot be writable"))
    ∧ (cs0.writable = false
      ∧ conn0.stream_execute_rpc "select 1" [] cs0.keyspace cs0.tablet_type
          cs0.keyspace_ids cs0.keyranges true cs0.effective_caller_id
        = .ok ([[7]], some ["col0"])
      ∧ StreamVTGateCursor.execute conn0 cs0 "select 1" []
          = .ok ({ clear_stream_state cs0 with
                     generator := some [[7]],
                     description := some ["col0"] }, 0)) :=
  ⟨⟨rfl, (stream_execute_spec conn0 cws0 "select 1" []).1 rfl⟩,
   ⟨rfl, rfl,
    (stream_execute_spec conn0 cs0 "select 1" []).2 [[7]] (some ["col0"]) rfl rfl⟩⟩

/-- C9: after `close` the batch state is cleared (`result_sets` empty,
`result_set_index` unset) whatever the prior state, and a second `close`
leaves the state unchanged (idempotence). -/
theorem close_clears_batch_state (c : VTGateCursor) :
    (VTGateCursor.close c).result_sets = []
    ∧ (VTGateCursor.close c).result_set_index = none
    ∧ VTGateCursor.close (VTGateCursor.close c) = VTGateCursor.close c :=
  ⟨rfl, rfl, rfl⟩

end Vtgate
